import Mathlib

/-!
Verification development for the fastapi-api-analytics service.

Shallow embedding conventions:
* The SQLite log store is a `List Log`; SQL queries over the
  `filtered_logs` CTE become list computations.
* `datetime` values are microseconds since the epoch (`Nat`); a `date`
  is a day index; `datetime.combine(d, time.min)` is `dayStart d` and
  `datetime.combine(d, time.max)` is `dayEnd d` (23:59:59.999999).
* Python `float` arithmetic is modelled with exact rationals; `round(x, 2)`
  is `round2` (round half to even at two decimals, Python's rounding mode).
* The `strftime` bucket key of `get_time_series` is abstracted by a key
  function `keyFn : Nat -> Nat`; for the fixed-width numeric formats used
  ('%Y-%m-%d' etc.) lexicographic order on the strings agrees with the
  numeric order of the key, and for the "daily" period the key is
  `dailyKey` below.
* Python truthiness (`if param.status_code:`, `all([...])`) is modelled
  explicitly: `None` and numeric zero and the empty string are falsy.
-/

/-- Microseconds per day: `time.max` is 23:59:59.999999, one microsecond
before the next midnight. -/
def usPerDay : Nat := 86400000000

/-- `datetime.combine(d, time.min)` for a day index `d`. -/
def dayStart (d : Nat) : Nat := d * usPerDay

/-- `datetime.combine(d, time.max)` for a day index `d`. -/
def dayEnd (d : Nat) : Nat := d * usPerDay + (usPerDay - 1)

/-- Bucket key for the "daily" period: `strftime('%Y-%m-%d', t)` collapses a
timestamp to its calendar day. -/
def dailyKey (t : Nat) : Nat := t / usPerDay

/-- Round half to even to an integer (Python's rounding mode for `round`). -/
def roundHalfEven (q : ℚ) : ℤ :=
  let f : ℤ := ⌊q⌋
  let frac : ℚ := q - f
  if frac < 1/2 then f
  else if 1/2 < frac then f + 1
  else if f % 2 = 0 then f else f + 1

/-- Python `round(x, 2)` on the exact-rational model. -/
def round2 (q : ℚ) : ℚ := (roundHalfEven (q * 100) : ℚ) / 100

/-- One stored request record (table `log` in `models.py`). -/
structure Log where
  id : Nat
  created_at : Nat
  method : String
  endpoint : String
  ip : Option String
  process_time : ℚ
  status_code : Nat
  api_key_id : Nat
deriving Repr, DecidableEq

/-- `status_code.between(400, 599)`: the error predicate used by
`get_errors_rate`, `get_time_series` and `get_endpoint_stats`. -/
def isError (l : Log) : Bool := 400 ≤ l.status_code && l.status_code ≤ 599

/-- Number of error rows in a subset. -/
def errCount (logs : List Log) : Nat := (logs.filter isError).length

/-- `func.count()` over the filtered CTE (`get_total_req`). -/
def get_total_req (logs : List Log) : Nat := logs.length

/-- Sum of `process_time` over a subset (used for the SQL `avg`). -/
def ptSum (logs : List Log) : ℚ := (logs.map Log.process_time).sum

/-- SQL `avg(process_time)`: `NULL` on the empty set, else the mean. -/
def ptAvg (logs : List Log) : Option ℚ :=
  if logs.length = 0 then none else some (ptSum logs / logs.length)

/-- SQL `min(process_time)`: `NULL` on the empty set. -/
def ptMin : List Log → Option ℚ
  | [] => none
  | l :: ls =>
    match ptMin ls with
    | none => some l.process_time
    | some m => some (min l.process_time m)

/-- SQL `max(process_time)`: `NULL` on the empty set. -/
def ptMax : List Log → Option ℚ
  | [] => none
  | l :: ls =>
    match ptMax ls with
    | none => some l.process_time
    | some m => some (max l.process_time m)

/-- Python truthiness of an optional float (`None` and `0.0` are falsy),
as used by `all([min_time, avg_time, max_time])`. -/
def pyTruthy (o : Option ℚ) : Bool :=
  match o with
  | none => false
  | some q => q ≠ 0

/-- Result of `get_res_time_stats` (a dict of three floats). -/
structure ResTimeStats where
  min : ℚ
  avg : ℚ
  max : ℚ
deriving Repr, DecidableEq

/-- `get_res_time_stats`: SQL min/avg/max of `process_time`; the zeros
fallback fires unless all three aggregates are Python-truthy
(`if all([min_time, avg_time, max_time])`). -/
def get_res_time_stats (logs : List Log) : ResTimeStats :=
  let mn := ptMin logs
  let av := ptAvg logs
  let mx := ptMax logs
  if pyTruthy mn && pyTruthy av && pyTruthy mx then
    ⟨mn.getD 0, av.getD 0, mx.getD 0⟩
  else
    ⟨0, 0, 0⟩

/-- `get_errors_rate`: `(errors / total_requests) * 100` in true division,
`0` when the subset is empty. -/
def get_errors_rate (logs : List Log) : ℚ :=
  let errors : ℚ := errCount logs
  let total : ℚ := get_total_req logs
  if get_total_req logs ≠ 0 then (errors / total) * 100 else 0

/-- First-occurrence deduplication, modelling SQL `GROUP BY` /
`COUNT(DISTINCT ...)` key extraction. -/
def dedupBy {α : Type} [DecidableEq α] : List α → List α
  | [] => []
  | x :: xs => x :: dedupBy (xs.filter (fun y => y ≠ x))
termination_by l => l.length
decreasing_by
  simp only [List.length_cons]
  exact Nat.lt_succ_of_le (List.length_filter_le _ _)

/-- `get_unique_ips`: `COUNT(DISTINCT ip)`; SQL ignores NULL values. -/
def get_unique_ips (logs : List Log) : Nat :=
  (dedupBy (logs.filterMap Log.ip)).length

/-- `get_method_usage`: request count grouped by method. -/
def get_method_usage (logs : List Log) : List (String × Nat) :=
  (dedupBy (logs.map Log.method)).map
    (fun m => (m, (logs.filter (fun l => l.method = m)).length))

/-- `get_status_codes`: request count grouped by status code. -/
def get_status_codes (logs : List Log) : List (Nat × Nat) :=
  (dedupBy (logs.map Log.status_code)).map
    (fun c => (c, (logs.filter (fun l => l.status_code = c)).length))

/-- Insert a key into a strictly descending list of distinct keys, modelling
SQL `GROUP BY key ORDER BY key DESC`. -/
def insertDesc (k : Nat) : List Nat → List Nat
  | [] => [k]
  | x :: xs =>
    if x < k then k :: x :: xs
    else if k = x then x :: xs
    else x :: insertDesc k xs

/-- The distinct keys of a list, sorted descending. -/
def sortedKeysDesc (l : List Nat) : List Nat := l.foldr insertDesc []

/-- One row of the time-series view (`TimeSeriesEntry`); the `strftime`
string is represented by the numeric bucket key. -/
structure TimeSeriesEntry where
  timestamp : Nat
  requests : Nat
  avg_time : ℚ
  error_rate : ℚ
deriving Repr, DecidableEq

/-- The subset of rows falling in one bucket. -/
def bucketOf (logs : List Log) (keyFn : Nat → Nat) (k : Nat) : List Log :=
  logs.filter (fun l => keyFn l.created_at = k)

/-- The un-rounded SELECT row for one bucket: request count, SQL `avg`, and
`cast(count() filter (error) * 100 / count(id) as Float)` — an INTEGER
division in SQLite (both operands are integers), cast to float afterwards. -/
def timeSeriesRow (logs : List Log) (keyFn : Nat → Nat) (k : Nat) : TimeSeriesEntry :=
  let b := bucketOf logs keyFn k
  { timestamp := k
    requests := b.length
    avg_time := (ptAvg b).getD 0
    error_rate := ((errCount b * 100) / b.length : Nat) }

/-- `TimeSeriesEntry.round_values`: round `avg_time` and `error_rate` to two
decimals when they are Python-truthy. -/
def TimeSeriesEntry.round_values (e : TimeSeriesEntry) : TimeSeriesEntry :=
  { e with
    avg_time := if e.avg_time = 0 then e.avg_time else round2 e.avg_time
    error_rate := if e.error_rate = 0 then e.error_rate else round2 e.error_rate }

/-- `get_time_series`: group by the period's bucket key, order by the key
descending, `LIMIT 50`; the response model then rounds each entry. -/
def get_time_series (logs : List Log) (keyFn : Nat → Nat) : List TimeSeriesEntry :=
  ((sortedKeysDesc (logs.map (fun l => keyFn l.created_at))).take 50).map
    (fun k => (timeSeriesRow logs keyFn k).round_values)

/-- One row of the top-IPs view (`TopIpEntry`); SQL `GROUP BY ip` keeps a
NULL group, hence the optional ip. -/
structure TopIpEntry where
  ip : Option String
  requests : Nat
deriving Repr, DecidableEq

/-- Insertion sort by descending request count (SQL
`ORDER BY count(id) DESC`; tie order unspecified in the source). -/
def insertByCountDesc (countOf : Option String → Nat) (k : Option String) :
    List (Option String) → List (Option String)
  | [] => [k]
  | x :: xs =>
    if countOf x < countOf k then k :: x :: xs else x :: insertByCountDesc countOf k xs

/-- `get_top_ips`: group by ip, order by request count descending, LIMIT 5. -/
def get_top_ips (logs : List Log) : List TopIpEntry :=
  let countOf : Option String → Nat :=
    fun i => (logs.filter (fun l => l.ip = i)).length
  let keys := (dedupBy (logs.map Log.ip)).foldr (insertByCountDesc countOf) []
  (keys.take 5).map (fun i => { ip := i, requests := countOf i })

/-- One row of the endpoint-stats view (`EndpointStatsEntry`). -/
structure EndpointStatsEntry where
  endpoint : String
  requests : Nat
  avg_time : ℚ
  errors_count : Nat
deriving Repr, DecidableEq

/-- `EndpointStatsEntry.round_values`: round `avg_time` when truthy. -/
def EndpointStatsEntry.round_values (e : EndpointStatsEntry) : EndpointStatsEntry :=
  { e with avg_time := if e.avg_time = 0 then e.avg_time else round2 e.avg_time }

/-- Insertion sort of endpoints by descending request count. -/
def insertEpByCountDesc (countOf : String → Nat) (k : String) :
    List String → List String
  | [] => [k]
  | x :: xs =>
    if countOf x < countOf k then k :: x :: xs else x :: insertEpByCountDesc countOf k xs

/-- `get_endpoint_stats`: group by endpoint, order by request count
descending, LIMIT 5; per group request count, SQL `avg(process_time)` and
error count; the response model rounds `avg_time`. -/
def get_endpoint_stats (logs : List Log) : List EndpointStatsEntry :=
  let countOf : String → Nat :=
    fun e => (logs.filter (fun l => l.endpoint = e)).length
  let keys := (dedupBy (logs.map Log.endpoint)).foldr (insertEpByCountDesc countOf) []
  (keys.take 5).map (fun e =>
    let b := logs.filter (fun l => l.endpoint = e)
    EndpointStatsEntry.round_values
      { endpoint := e
        requests := b.length
        avg_time := (ptAvg b).getD 0
        errors_count := errCount b })

/-- The `summary` section of the dashboard (`SummaryModel`), after
`round_values` ran. -/
structure SummaryModel where
  total_requests : Nat
  unique_ips : Nat
  avg_response_time : Option ℚ
  min_response_time : Option ℚ
  max_response_time : Option ℚ
  error_rate : ℚ
deriving Repr, DecidableEq

/-- The full dashboard payload (`DashboardResponse`). -/
structure DashboardResponse where
  summary : SummaryModel
  method_usage : List (String × Nat)
  endpoint_stats : List EndpointStatsEntry
  status_codes : List (Nat × Nat)
  top_ips : List TopIpEntry
  time_series : List TimeSeriesEntry
deriving Repr, DecidableEq

/-- The canonical empty result (`EMPTY_DASHBOARD` in `services.py`). -/
def EMPTY_DASHBOARD : DashboardResponse :=
  { summary :=
      { total_requests := 0
        unique_ips := 0
        avg_response_time := none
        min_response_time := none
        max_response_time := none
        error_rate := 0 }
    method_usage := []
    endpoint_stats := []
    status_codes := []
    top_ips := []
    time_series := [] }

/-- `SummaryModel.round_values` on one float field: round when truthy. -/
def roundIfTruthy (q : ℚ) : ℚ := if q = 0 then q else round2 q

/-- `filter_by_time_key`: owner equality and
`created_at.between(start 00:00:00, end 23:59:59.999999)` (inclusive). -/
def filter_by_time_key (logs : List Log) (api_key : Nat) (start finish : Nat) :
    List Log :=
  logs.filter (fun l =>
    l.api_key_id = api_key &&
    dayStart start ≤ l.created_at && l.created_at ≤ dayEnd finish)

/-- `compute_summary`: filter by owner and window; empty subset short-circuits
to `EMPTY_DASHBOARD`; otherwise assemble the seven views, with
`SummaryModel.round_values` applied to the truthy float fields. -/
def compute_summary (logs : List Log) (api_key : Nat) (start finish : Nat)
    (keyFn : Nat → Nat) : DashboardResponse :=
  let filtered := filter_by_time_key logs api_key start finish
  if get_total_req filtered = 0 then EMPTY_DASHBOARD
  else
    let stats := get_res_time_stats filtered
    { summary :=
        { total_requests := get_total_req filtered
          unique_ips := get_unique_ips filtered
          avg_response_time := some (roundIfTruthy stats.avg)
          min_response_time := some (roundIfTruthy stats.min)
          max_response_time := some (roundIfTruthy stats.max)
          error_rate := roundIfTruthy (get_errors_rate filtered) }
      method_usage := get_method_usage filtered
      endpoint_stats := get_endpoint_stats filtered
      status_codes := get_status_codes filtered
      top_ips := get_top_ips filtered
      time_series := get_time_series filtered keyFn }

/-- The sentinel strings treated as null by `clean_string` in `schemas.py`. -/
def NULLABLE_VALUES : List String := ["", " ", "null", "NULL", "None"]

/-- Characters removed by the regex `[\x00-\x1F\x7F]`. -/
def isCtrl (c : Char) : Bool := c.toNat ≤ 0x1F || c.toNat = 0x7F

/-- Python `str.strip()` on the control-char-free remainder: after the
control characters are removed, the remaining ASCII whitespace is the
space character, so stripping drops leading and trailing spaces. -/
def stripSpaces (s : List Char) : List Char :=
  (((s.dropWhile (fun c => c = ' ')).reverse).dropWhile (fun c => c = ' ')).reverse

/-- `clean_string` from `schemas.py`: sentinel values map to `None`; control
characters are removed; the result is stripped (and may be the empty
string when stripping removed everything, since the emptiness test runs
before `strip`). -/
def clean_string (s : String) : Option String :=
  if s = "" || s ∈ NULLABLE_VALUES then none
  else
    let cleaned := String.mk (s.data.filter (fun c => !(isCtrl c)))
    if cleaned = "" then none
    else some (String.mk (stripSpaces cleaned.data))

/-- The method whitelist of `LogInput.validate_method`
(`^(GET|POST|PUT|DELETE|PATCH|OPTIONS)$`, an exact, case-sensitive match). -/
def ALLOWED_METHODS : List String := ["GET", "POST", "PUT", "DELETE", "PATCH", "OPTIONS"]

/-- An inbound `/track` payload, after datetime parsing (`created_at` is
already a timestamp; ISO-8601 parsing is boundary-layer work). -/
structure LogPayload where
  created_at : Nat
  method : String
  endpoint : String
  ip : Option String
  process_time : ℚ
  status_code : Nat
deriving Repr, DecidableEq

/-- A payload that passed `LogInput` validation, with the sanitized field
values that pydantic stored. -/
structure ValidatedLog where
  created_at : Nat
  method : String
  endpoint : String
  ip : Option String
  process_time : ℚ
  status_code : Nat
deriving Repr, DecidableEq

/-- `LogInput` validation (`schemas.py`): the before-model validator
`sanitize_log` runs `clean_string` on method, endpoint and ip; then
`validate_method` requires the cleaned method to match the whitelist
exactly; then the field constraints run (`endpoint` length 1..200, `ip`
length 7..45 when present, `process_time >= 0`,
`100 <= status_code <= 599`). Returns the stored record on success. -/
def LogInput.validate (p : LogPayload) : Option ValidatedLog :=
  match clean_string p.method with
  | none => none
  | some m =>
    if m ∈ ALLOWED_METHODS then
      match clean_string p.endpoint with
      | none => none
      | some e =>
        if 1 ≤ e.length && e.length ≤ 200 then
          let ipc := p.ip.bind clean_string
          let ipOk := match ipc with
            | none => true
            | some s => 7 ≤ s.length && s.length ≤ 45
          if ipOk && decide (0 ≤ p.process_time)
              && decide (100 ≤ p.status_code) && decide (p.status_code ≤ 599) then
            some ⟨p.created_at, m, e, ipc, p.process_time, p.status_code⟩
          else none
        else none
    else none

/-- `create_log` (`routers.py`): `Log(**log.model_dump(), api_key_id=...)`
appended to the store; `Log` is a `table=True` SQLModel, so no further
validation runs and the fields are stored exactly as validated. The id is
store-assigned. -/
def create_log (store : List Log) (v : ValidatedLog) (api_key_id : Nat) : List Log :=
  store ++ [{ id := store.length + 1
              created_at := v.created_at
              method := v.method
              endpoint := v.endpoint
              ip := v.ip
              process_time := v.process_time
              status_code := v.status_code
              api_key_id := api_key_id }]

/-- The `raw_logs` response row (`LogOutput` in `schemas.py`):
`round_process_time` rounds `process_time` to two decimals. -/
structure LogOutput where
  id : Nat
  created_at : Nat
  method : String
  endpoint : String
  ip : Option String
  process_time : ℚ
  status_code : Nat
deriving Repr, DecidableEq

/-- Serialization of a stored record through the `LogOutput` model. -/
def toLogOutput (l : Log) : LogOutput :=
  { id := l.id
    created_at := l.created_at
    method := l.method
    endpoint := l.endpoint
    ip := l.ip
    process_time := round2 l.process_time
    status_code := l.status_code }

/-- The `order_by` column names admitted by `FilterParams`. -/
inductive OrderBy where
  | created_at
  | method
  | endpoint
  | ip
  | process_time
  | status_code
deriving Repr, DecidableEq

/-- `FilterParams` (`schemas.py`): `end_date` is a non-optional field whose
default is `date.today()` — evaluated once, when the schemas module is
loaded, so a params object built without an explicit `end_date` carries
that fixed module-load day. -/
structure FilterParams where
  limit : Nat := 100
  offset : Nat := 0
  order_by : OrderBy := OrderBy.created_at
  start_date : Option Nat := none
  end_date : Nat
  method : Option String := none
  status_code : Option Nat := none
  endpoint : Option String := none
  ip : Option String := none
  process_time_min : Option ℚ := none
  process_time_max : Option ℚ := none
deriving Repr, DecidableEq

/-- A `FilterParams` built with every optional query field absent: all
defaults apply and `end_date` is the fixed module-load day. -/
def FilterParams.mkDefault (loadDate : Nat) : FilterParams :=
  { end_date := loadDate }

/-- Substring containment (`Log.endpoint.contains(param.endpoint)`,
SQL `LIKE '%..%'`). -/
def strContains (s pat : String) : Bool := decide (pat.data <:+: s.data)

/-- `build_log_filters` (`services.py`): the owner-equality condition first,
then one condition per Python-truthy field. `start_date`/`end_date` hold
`date` objects, which are always truthy when present; the numeric and
string fields are tested with `if param.field:`, so a present but falsy
value (0, 0.0, empty string) adds no condition. -/
def build_log_filters (param : FilterParams) (api_key_id : Nat) : List (Log → Bool) :=
  [fun (l : Log) => l.api_key_id == api_key_id]
  ++ (match param.start_date with
      | some d => [fun (l : Log) => decide (dayStart d ≤ l.created_at)]
      | none => [])
  ++ [fun (l : Log) => decide (l.created_at ≤ dayEnd param.end_date)]
  ++ (match param.method with
      | some m => if m = "" then [] else [fun (l : Log) => l.method == m]
      | none => [])
  ++ (match param.status_code with
      | some c => if c = 0 then [] else [fun (l : Log) => l.status_code == c]
      | none => [])
  ++ (match param.endpoint with
      | some e => if e = "" then [] else [fun (l : Log) => strContains l.endpoint e]
      | none => [])
  ++ (match param.ip with
      | some i => if i = "" then [] else [fun (l : Log) => l.ip == some i]
      | none => [])
  ++ (match param.process_time_min with
      | some q => if q = 0 then [] else [fun (l : Log) => decide (q ≤ l.process_time)]
      | none => [])
  ++ (match param.process_time_max with
      | some q => if q = 0 then [] else [fun (l : Log) => decide (l.process_time ≤ q)]
      | none => [])

/-- `.where(*conditions)`: a row passes when every condition holds. -/
def satisfiesAll (conds : List (Log → Bool)) (l : Log) : Bool :=
  conds.all (fun c => c l)

/-- Row comparison for `ORDER BY` on one column; SQL sorts NULLs first. -/
def Log.fieldLe : OrderBy → Log → Log → Bool
  | OrderBy.created_at, a, b => a.created_at ≤ b.created_at
  | OrderBy.method, a, b => decide (a.method ≤ b.method)
  | OrderBy.endpoint, a, b => decide (a.endpoint ≤ b.endpoint)
  | OrderBy.ip, a, b =>
    match a.ip, b.ip with
    | none, _ => true
    | some _, none => false
    | some x, some y => decide (x ≤ y)
  | OrderBy.process_time, a, b => decide (a.process_time ≤ b.process_time)
  | OrderBy.status_code, a, b => a.status_code ≤ b.status_code

/-- Insertion step of the sort modelling `ORDER BY` (the store's tie order
is unspecified; any permutation respecting `le` is a faithful model). -/
def insertLe (le : Log → Log → Bool) (x : Log) : List Log → List Log
  | [] => [x]
  | y :: ys => if le x y then x :: y :: ys else y :: insertLe le x ys

/-- Insertion sort of the filtered rows. -/
def sortLogs (le : Log → Log → Bool) (l : List Log) : List Log :=
  l.foldr (insertLe le) []

/-- `show_raw_logs` (`routers.py`): build the filter conditions, select the
matching rows, order by the requested column, apply offset and limit. -/
def show_raw_logs (store : List Log) (param : FilterParams) (api_key_id : Nat) :
    List Log :=
  let conds := build_log_filters param api_key_id
  let filtered := store.filter (satisfiesAll conds)
  ((sortLogs (Log.fieldLe param.order_by) filtered).drop param.offset).take param.limit

/-- The `/raw_logs` response: the page serialized through `LogOutput`. -/
def raw_logs_api (store : List Log) (param : FilterParams) (api_key_id : Nat) :
    List LogOutput :=
  (show_raw_logs store param api_key_id).map toLogOutput

/-- The filter contract exactly as the claim states it: every present
optional field contributes its constraint, including boundary values such
as `status_code = 0` or `process_time_min = 0.0`. Written from the spec's
words, to be compared with `build_log_filters`. -/
def claimFilterPred (param : FilterParams) (api_key_id : Nat) (l : Log) : Bool :=
  (l.api_key_id == api_key_id)
  && (match param.start_date with
      | some d => decide (dayStart d ≤ l.created_at)
      | none => true)
  && decide (l.created_at ≤ dayEnd param.end_date)
  && (match param.method with
      | some m => l.method == m
      | none => true)
  && (match param.status_code with
      | some c => l.status_code == c
      | none => true)
  && (match param.endpoint with
      | some e => strContains l.endpoint e
      | none => true)
  && (match param.ip with
      | some i => l.ip == some i
      | none => true)
  && (match param.process_time_min with
      | some q => decide (q ≤ l.process_time)
      | none => true)
  && (match param.process_time_max with
      | some q => decide (l.process_time ≤ q)
      | none => true)

/-- The filter contract as amended: a present optional field contributes its
constraint only when its value is Python-truthy — a supplied zero
`status_code`/`process_time_min`/`process_time_max` or an empty
`method`/`endpoint`/`ip` string behaves as absent; the date bounds apply
whenever present. -/
def amendedFilterPred (param : FilterParams) (api_key_id : Nat) (l : Log) : Bool :=
  (l.api_key_id == api_key_id)
  && (match param.start_date with
      | some d => decide (dayStart d ≤ l.created_at)
      | none => true)
  && decide (l.created_at ≤ dayEnd param.end_date)
  && (match param.method with
      | some m => if m = "" then true else l.method == m
      | none => true)
  && (match param.status_code with
      | some c => if c = 0 then true else l.status_code == c
      | none => true)
  && (match param.endpoint with
      | some e => if e = "" then true else strContains l.endpoint e
      | none => true)
  && (match param.ip with
      | some i => if i = "" then true else l.ip == some i
      | none => true)
  && (match param.process_time_min with
      | some q => if q = 0 then true else decide (q ≤ l.process_time)
      | none => true)
  && (match param.process_time_max with
      | some q => if q = 0 then true else decide (l.process_time ≤ q)
      | none => true)

/-- A concrete record for the test fixtures: day index `d`, status `st`,
latency `pt`, owner 1, distinct ids per day. -/
def mkLogAt (d : Nat) (st : Nat) (pt : ℚ) : Log :=
  { id := d + 1
    created_at := d * usPerDay + 1000
    method := "GET"
    endpoint := "/users"
    ip := some "192.168.0.1"
    process_time := pt
    status_code := st
    api_key_id := 1 }

/-- The seed of `test_services.py`: seven records spanning seven distinct
days, statuses 200,201,500,404,200,503,200. -/
def sevenDayLogs : List Log :=
  [mkLogAt 0 200 (1/10), mkLogAt 1 201 (2/10), mkLogAt 2 500 (3/10),
   mkLogAt 3 404 (4/10), mkLogAt 4 200 (5/10), mkLogAt 5 503 (6/10),
   mkLogAt 6 200 (7/10)]

/-- Seven records with the same statuses, all on the same calendar day —
one time-series bucket with 3 errors out of 7 requests. -/
def sameDayLogs : List Log :=
  [{ mkLogAt 0 200 (1/10) with id := 1 }, { mkLogAt 0 201 (2/10) with id := 2 },
   { mkLogAt 0 500 (3/10) with id := 3 }, { mkLogAt 0 404 (4/10) with id := 4 },
   { mkLogAt 0 200 (5/10) with id := 5 }, { mkLogAt 0 503 (6/10) with id := 6 },
   { mkLogAt 0 200 (7/10) with id := 7 }]

/-- Two same-owner records on day 0 whose latencies are 0.0 and 1.0: a
non-empty subset whose minimum `process_time` is zero. -/
def zeroMinLogs : List Log :=
  [{ mkLogAt 0 200 0 with id := 1 }, { mkLogAt 0 200 1 with id := 2 }]

/-- A fully valid `/track` payload whose method is lower-case "get". -/
def payloadLowerGet : LogPayload :=
  { created_at := 1000
    method := "get"
    endpoint := "/users"
    ip := some "192.168.0.1"
    process_time := 1
    status_code := 200 }

/-- The same payload with the whitelisted spelling, parameterized by the
method string. -/
def payloadWithMethod (m : String) : LogPayload :=
  { payloadLowerGet with method := m }

/-- A valid payload with a mixed-case endpoint. -/
def payloadUpperEndpoint : LogPayload :=
  { payloadLowerGet with method := "GET", endpoint := "/API" }

/-- The record that `LogInput` validation stores for `payloadUpperEndpoint`. -/
def validatedUpperEndpoint : ValidatedLog :=
  { created_at := 1000
    method := "GET"
    endpoint := "/API"
    ip := some "192.168.0.1"
    process_time := 1
    status_code := 200 }

theorem round2_zero : round2 0 = 0 := by
  simp [round2, roundHalfEven]

theorem round2_natCast (n : Nat) : round2 (n : ℚ) = n := by
  have h : ((n : ℚ) * 100) = ((n * 100 : ℕ) : ℚ) := by push_cast; ring
  unfold round2 roundHalfEven
  rw [h, Int.floor_natCast]
  have hfrac : ((n * 100 : ℕ) : ℚ) - ((n * 100 : ℕ) : ℤ) = 0 := by push_cast; ring
  simp only [hfrac]
  norm_num

theorem roundIfTruthy_eq_round2 (q : ℚ) : roundIfTruthy q = round2 q := by
  unfold roundIfTruthy
  split
  · rename_i h
    rw [h, round2_zero]
  · rfl

/-- C1: for every owner and time window, an empty filtered subset makes
`compute_summary` return the canonical empty result `EMPTY_DASHBOARD`
(total_requests 0, unique_ips 0, the three latency statistics absent,
error_rate 0, every collection empty) rather than failing. -/
theorem c1_empty_subset_yields_empty_dashboard
    (logs : List Log) (api_key start finish : Nat) (keyFn : Nat → Nat)
    (h : filter_by_time_key logs api_key start finish = []) :
    compute_summary logs api_key start finish keyFn = EMPTY_DASHBOARD := by
  unfold compute_summary
  rw [h]
  rfl

/-- Witness for C1 at a concrete input: a store holding only another
owner's record filters to the empty subset for owner 2. -/
theorem c1_empty_subset_yields_empty_dashboard_witness :
    filter_by_time_key sevenDayLogs 2 0 6 = [] ∧
    compute_summary sevenDayLogs 2 0 6 dailyKey = EMPTY_DASHBOARD :=
  ⟨by decide, c1_empty_subset_yields_empty_dashboard sevenDayLogs 2 0 6 dailyKey (by decide)⟩

/-- C3: on a non-empty filtered subset the summary's error rate is the
error count over the request count, times 100, rounded to two decimals. -/
theorem c3_summary_error_rate
    (logs : List Log) (api_key start finish : Nat) (keyFn : Nat → Nat)
    (h : filter_by_time_key logs api_key start finish ≠ []) :
    (compute_summary logs api_key start finish keyFn).summary.error_rate
      = round2 (100 * (errCount (filter_by_time_key logs api_key start finish) : ℚ)
          / (get_total_req (filter_by_time_key logs api_key start finish) : ℚ)) := by
  set F := filter_by_time_key logs api_key start finish with hF
  have hlen : get_total_req F ≠ 0 := by
    simpa [get_total_req, List.length_eq_zero] using h
  unfold compute_summary
  rw [← hF]
  rw [if_neg hlen]
  show roundIfTruthy (get_errors_rate F) = _
  rw [roundIfTruthy_eq_round2]
  unfold get_errors_rate
  rw [if_pos hlen]
  congr 1
  ring

/-- Witness for C3: a two-record subset with one error has error rate
`round2 50 = 50`. -/
theorem c3_summary_error_rate_witness :
    filter_by_time_key zeroMinLogs 1 0 1 ≠ [] ∧
    (compute_summary zeroMinLogs 1 0 1 dailyKey).summary.error_rate
      = round2 (100 * (errCount (filter_by_time_key zeroMinLogs 1 0 1) : ℚ)
          / (get_total_req (filter_by_time_key zeroMinLogs 1 0 1) : ℚ)) :=
  ⟨by decide, c3_summary_error_rate zeroMinLogs 1 0 1 dailyKey (by decide)⟩

theorem mem_insertLe (le : Log → Log → Bool) (x a : Log) (l : List Log) :
    a ∈ insertLe le x l ↔ a = x ∨ a ∈ l := by
  induction l with
  | nil => simp [insertLe]
  | cons y ys ih =>
    unfold insertLe
    split
    · simp [List.mem_cons]
    · simp only [List.mem_cons, ih]
      tauto

theorem mem_sortLogs (le : Log → Log → Bool) (l : List Log) (a : Log) :
    a ∈ sortLogs le l ↔ a ∈ l := by
  induction l with
  | nil => simp [sortLogs]
  | cons y ys ih =>
    show a ∈ insertLe le y (sortLogs le ys) ↔ _
    rw [mem_insertLe]
    simp only [List.mem_cons]
    rw [ih]

theorem owner_of_satisfiesAll (param : FilterParams) (k : Nat) (l : Log)
    (h : satisfiesAll (build_log_filters param k) l = true) : l.api_key_id = k := by
  unfold satisfiesAll build_log_filters at h
  simp only [List.singleton_append, List.cons_append, List.append_assoc,
    List.all_cons, Bool.and_eq_true, beq_iff_eq] at h
  exact h.1

theorem satisfiesAll_ne_owner (param : FilterParams) (A B : Nat) (l : Log)
    (hA : l.api_key_id = A) (hne : A ≠ B) :
    satisfiesAll (build_log_filters param B) l = false := by
  cases hc : satisfiesAll (build_log_filters param B) l with
  | false => rfl
  | true => exact absurd (hA ▸ owner_of_satisfiesAll param B l hc) hne

theorem filter_by_time_key_append_other
    (store extra : List Log) (A B start finish : Nat)
    (hAB : A ≠ B) (hextra : ∀ l ∈ extra, l.api_key_id = A) :
    filter_by_time_key (store ++ extra) B start finish
      = filter_by_time_key store B start finish := by
  unfold filter_by_time_key
  rw [List.filter_append]
  have hnil : extra.filter (fun l =>
      decide (l.api_key_id = B) && decide (dayStart start ≤ l.created_at)
        && decide (l.created_at ≤ dayEnd finish)) = [] := by
    rw [List.filter_eq_nil_iff]
    intro l hl
    simp [hextra l hl, hAB]
  rw [hnil, List.append_nil]

theorem raw_filter_append_other
    (store extra : List Log) (A B : Nat) (param : FilterParams)
    (hAB : A ≠ B) (hextra : ∀ l ∈ extra, l.api_key_id = A) :
    (store ++ extra).filter (satisfiesAll (build_log_filters param B))
      = store.filter (satisfiesAll (build_log_filters param B)) := by
  rw [List.filter_append]
  have hnil : extra.filter (satisfiesAll (build_log_filters param B)) = [] := by
    rw [List.filter_eq_nil_iff]
    intro l hl
    rw [satisfiesAll_ne_owner param A B l (hextra l hl) hAB]
    simp
  rw [hnil, List.append_nil]

/-- C2: cross-owner isolation. For distinct keys `A ≠ B`, every record of
the raw-log page computed for `B` belongs to `B`; and appending records
owned by `A` changes neither `B`'s raw-log page nor `B`'s dashboard. -/
theorem c2_cross_owner_isolation
    (store extra : List Log) (A B : Nat) (param : FilterParams)
    (start finish : Nat) (keyFn : Nat → Nat)
    (hAB : A ≠ B) (hextra : ∀ l ∈ extra, l.api_key_id = A) :
    (∀ l ∈ show_raw_logs (store ++ extra) param B, l.api_key_id = B)
    ∧ show_raw_logs (store ++ extra) param B = show_raw_logs store param B
    ∧ compute_summary (store ++ extra) B start finish keyFn
        = compute_summary store B start finish keyFn := by
  refine ⟨?_, ?_, ?_⟩
  · intro l hl
    unfold show_raw_logs at hl
    have hl' := List.mem_of_mem_drop (List.mem_of_mem_take hl)
    rw [mem_sortLogs] at hl'
    have := (List.mem_filter.mp hl').2
    exact owner_of_satisfiesAll param B l this
  · simp only [show_raw_logs]
    rw [raw_filter_append_other store extra A B param hAB hextra]
  · unfold compute_summary
    rw [filter_by_time_key_append_other store extra A B start finish hAB hextra]

/-- Witness for C2: owner 2's single record plus owner 1's seven seeded
records; owner 2's raw page contains only owner-2 records and owner 1's
data leaves owner 2's dashboard unchanged. -/
theorem c2_cross_owner_isolation_witness :
    (∀ l ∈ show_raw_logs ([{ mkLogAt 0 200 1 with api_key_id := 2 }] ++ sevenDayLogs)
        (FilterParams.mkDefault 6) 2, l.api_key_id = 2)
    ∧ show_raw_logs ([{ mkLogAt 0 200 1 with api_key_id := 2 }] ++ sevenDayLogs)
        (FilterParams.mkDefault 6) 2
        = show_raw_logs [{ mkLogAt 0 200 1 with api_key_id := 2 }]
            (FilterParams.mkDefault 6) 2
    ∧ compute_summary ([{ mkLogAt 0 200 1 with api_key_id := 2 }] ++ sevenDayLogs) 2 0 6 dailyKey
        = compute_summary [{ mkLogAt 0 200 1 with api_key_id := 2 }] 2 0 6 dailyKey :=
  c2_cross_owner_isolation [{ mkLogAt 0 200 1 with api_key_id := 2 }] sevenDayLogs
    1 2 (FilterParams.mkDefault 6) 0 6 dailyKey (by decide) (by decide)

/-- C4 (failing input): the seven seeded records spanning seven distinct
days, daily period. The dashboard time series returns all seven buckets,
most recent first — the `LIMIT 50` in `get_time_series` does not cap the
view at 5 buckets as the spec and the repository's own
`test_get_time_series_with_logs` (which asserts `len(result) == 5`)
require. -/
theorem c4_seven_days_give_seven_buckets :
    (compute_summary sevenDayLogs 1 0 6 dailyKey).time_series.length = 7
    ∧ (compute_summary sevenDayLogs 1 0 6 dailyKey).time_series.map
        (fun e => e.timestamp) = [6, 5, 4, 3, 2, 1, 0] := by
  constructor
  · rfl
  · rfl

/-- C5 (counterexample): seven same-day records with three errors form one
bucket; the code reports `error_rate = 42` — the SQLite integer quotient
`3 * 100 / 7` — while the claim's exact rounded value is
`round2 (300/7) = 42.86`. -/
theorem c5_bucket_error_rate_counterexample :
    (get_time_series sameDayLogs dailyKey).map (fun e => e.error_rate) = [42]
    ∧ round2 (100 * (errCount sameDayLogs : ℚ) / (sameDayLogs.length : ℚ))
        = 2143 / 50
    ∧ (42 : ℚ) ≠ 2143 / 50 := by
  refine ⟨?_, ?_, by norm_num⟩
  · have h1 : (get_time_series sameDayLogs dailyKey).map (fun e => e.error_rate)
        = [(timeSeriesRow sameDayLogs dailyKey 0).round_values.error_rate] := rfl
    have h2 : (timeSeriesRow sameDayLogs dailyKey 0).round_values.error_rate
        = if ((42 : ℕ) : ℚ) = 0 then ((42 : ℕ) : ℚ) else round2 ((42 : ℕ) : ℚ) := rfl
    rw [h1, h2, round2_natCast]
    norm_num
  · have he : errCount sameDayLogs = 3 := rfl
    have hl : sameDayLogs.length = 7 := rfl
    rw [he, hl]
    norm_num [round2, roundHalfEven]

/-- C5 as amended: every emitted time-series bucket reports
`error_rate = float((errors * 100) DIV requests)` — the integer-truncated
SQLite quotient — together with the bucket's request count, not the
exact rational `errors / requests * 100` rounded to two decimals. -/
theorem c5_bucket_error_rate_truncated
    (logs : List Log) (keyFn : Nat → Nat) (e : TimeSeriesEntry)
    (he : e ∈ get_time_series logs keyFn) :
    e.requests = (bucketOf logs keyFn e.timestamp).length
    ∧ e.error_rate = ((errCount (bucketOf logs keyFn e.timestamp) * 100)
        / (bucketOf logs keyFn e.timestamp).length : Nat) := by
  unfold get_time_series at he
  rw [List.mem_map] at he
  obtain ⟨k, _, hk⟩ := he
  subst hk
  unfold timeSeriesRow TimeSeriesEntry.round_values
  constructor
  · rfl
  · show (if ((errCount (bucketOf logs keyFn k) * 100)
        / (bucketOf logs keyFn k).length : Nat) = (0 : ℚ) then _ else _) = _
    split
    · rename_i h
      exact h.symm ▸ h
    · exact round2_natCast _

/-- Witness for C5's amended statement at the one-bucket fixture. -/
theorem c5_bucket_error_rate_truncated_witness :
    ((timeSeriesRow sameDayLogs dailyKey 0).round_values
        ∈ get_time_series sameDayLogs dailyKey)
    ∧ (timeSeriesRow sameDayLogs dailyKey 0).round_values.requests
        = (bucketOf sameDayLogs dailyKey
            (timeSeriesRow sameDayLogs dailyKey 0).round_values.timestamp).length
    ∧ (timeSeriesRow sameDayLogs dailyKey 0).round_values.error_rate
        = ((errCount (bucketOf sameDayLogs dailyKey
              (timeSeriesRow sameDayLogs dailyKey 0).round_values.timestamp) * 100)
            / (bucketOf sameDayLogs dailyKey
              (timeSeriesRow sameDayLogs dailyKey 0).round_values.timestamp).length : Nat) :=
  have hrow : get_time_series sameDayLogs dailyKey
      = [(timeSeriesRow sameDayLogs dailyKey 0).round_values] := rfl
  have hmem : (timeSeriesRow sameDayLogs dailyKey 0).round_values
      ∈ get_time_series sameDayLogs dailyKey := by
    rw [hrow]
    exact List.mem_singleton_self _
  ⟨hmem,
   (c5_bucket_error_rate_truncated sameDayLogs dailyKey _ hmem).1,
   (c5_bucket_error_rate_truncated sameDayLogs dailyKey _ hmem).2⟩

theorem ptMin_mem (logs : List Log) (m : ℚ) (h : ptMin logs = some m) :
    ∃ l ∈ logs, l.process_time = m := by
  induction logs generalizing m with
  | nil => simp [ptMin] at h
  | cons x xs ih =>
    unfold ptMin at h
    cases hx : ptMin xs with
    | none =>
      rw [hx] at h
      refine ⟨x, List.mem_cons_self x xs, ?_⟩
      injection h with h
    | some m' =>
      rw [hx] at h
      injection h with h
      rcases le_total x.process_time m' with hle | hle
      · refine ⟨x, List.mem_cons_self x xs, ?_⟩
        rw [← h, min_eq_left hle]
      · obtain ⟨l, hl, hpt⟩ := ih m' hx
        refine ⟨l, List.mem_cons_of_mem x hl, ?_⟩
        rw [hpt, ← h, min_eq_right hle]

theorem ptMin_le (logs : List Log) (m : ℚ) (h : ptMin logs = some m) :
    ∀ l ∈ logs, m ≤ l.process_time := by
  induction logs generalizing m with
  | nil => simp [ptMin] at h
  | cons x xs ih =>
    unfold ptMin at h
    intro l hl
    cases hx : ptMin xs with
    | none =>
      rw [hx] at h
      injection h with h
      have hxs : xs = [] := by
        cases xs with
        | nil => rfl
        | cons y ys =>
          exfalso
          unfold ptMin at hx
          cases hy : ptMin ys <;> rw [hy] at hx <;> exact Option.noConfusion hx
      subst hxs
      rcases List.mem_singleton.mp hl with rfl
      rw [← h]
    | some m' =>
      rw [hx] at h
      injection h with h
      rcases List.mem_cons.mp hl with rfl | hmem
      · rw [← h]
        exact min_le_left _ _
      · calc m ≤ m' := by rw [← h]; exact min_le_right _ _
          _ ≤ l.process_time := ih m' hx l hmem

theorem ptMax_mem (logs : List Log) (m : ℚ) (h : ptMax logs = some m) :
    ∃ l ∈ logs, l.process_time = m := by
  induction logs generalizing m with
  | nil => simp [ptMax] at h
  | cons x xs ih =>
    unfold ptMax at h
    cases hx : ptMax xs with
    | none =>
      rw [hx] at h
      refine ⟨x, List.mem_cons_self x xs, ?_⟩
      injection h with h
    | some m' =>
      rw [hx] at h
      injection h with h
      rcases le_total x.process_time m' with hle | hle
      · obtain ⟨l, hl, hpt⟩ := ih m' hx
        refine ⟨l, List.mem_cons_of_mem x hl, ?_⟩
        rw [hpt, ← h, max_eq_right hle]
      · refine ⟨x, List.mem_cons_self x xs, ?_⟩
        rw [← h, max_eq_left hle]

theorem length_mul_le_ptSum (logs : List Log) (m : ℚ)
    (h : ∀ l ∈ logs, m ≤ l.process_time) :
    (logs.length : ℚ) * m ≤ ptSum logs := by
  induction logs with
  | nil => simp [ptSum]
  | cons x xs ih =>
    have h1 := h x (List.mem_cons_self x xs)
    have h2 := ih (fun l hl => h l (List.mem_cons_of_mem x hl))
    unfold ptSum at *
    simp only [List.map_cons, List.sum_cons, List.length_cons]
    push_cast
    linarith

/-- C6 (counterexample): a non-empty subset whose latencies are 0.0 and 1.0.
The claim says the zeros fallback never fires on a non-empty subset and
that `avg_response_time` is the rounded mean (here `round2 (1/2) = 1/2`);
the code's `all([min_time, avg_time, max_time])` truthiness test sees
`min = 0.0` as falsy and reports the all-zeros statistics instead. -/
theorem c6_latency_zero_min_counterexample :
    filter_by_time_key zeroMinLogs 1 0 1 ≠ []
    ∧ ptAvg (filter_by_time_key zeroMinLogs 1 0 1) = some (1/2)
    ∧ round2 (1/2) = 1/2
    ∧ (compute_summary zeroMinLogs 1 0 1 dailyKey).summary.avg_response_time = some 0
    ∧ some (0 : ℚ) ≠ some ((1:ℚ)/2) := by
  have hF : filter_by_time_key zeroMinLogs 1 0 1 = zeroMinLogs := rfl
  refine ⟨by decide, ?_, ?_, rfl, by norm_num⟩
  · rw [hF]
    norm_num [ptAvg, ptSum, zeroMinLogs, mkLogAt]
  · norm_num [round2, roundHalfEven]

/-- C6 as amended: on a non-empty filtered subset the summary latency
statistics are the rounded min/mean/max of `process_time` only when all
three aggregates are nonzero; when the minimum is `0.0` (possible on a
non-empty subset since `process_time >= 0` admits zero) the truthiness
test fails and the all-zeros fallback is reported instead. -/
theorem c6_latency_stats_truthiness
    (logs : List Log) (api_key start finish : Nat) (keyFn : Nat → Nat)
    (mq aq xq : ℚ)
    (hmin : ptMin (filter_by_time_key logs api_key start finish) = some mq)
    (havg : ptAvg (filter_by_time_key logs api_key start finish) = some aq)
    (hmax : ptMax (filter_by_time_key logs api_key start finish) = some xq)
    (hnonneg : ∀ l ∈ filter_by_time_key logs api_key start finish,
        0 ≤ l.process_time) :
    (mq ≠ 0 →
      (compute_summary logs api_key start finish keyFn).summary.min_response_time
          = some (round2 mq)
      ∧ (compute_summary logs api_key start finish keyFn).summary.avg_response_time
          = some (round2 aq)
      ∧ (compute_summary logs api_key start finish keyFn).summary.max_response_time
          = some (round2 xq))
    ∧ (mq = 0 →
      (compute_summary logs api_key start finish keyFn).summary.min_response_time
          = some 0
      ∧ (compute_summary logs api_key start finish keyFn).summary.avg_response_time
          = some 0
      ∧ (compute_summary logs api_key start finish keyFn).summary.max_response_time
          = some 0) := by
  set F := filter_by_time_key logs api_key start finish with hFdef
  have hne : F ≠ [] := by
    intro h
    rw [h] at hmin
    simp [ptMin] at hmin
  have hlen : get_total_req F ≠ 0 := by
    simpa [get_total_req, List.length_eq_zero] using hne
  constructor
  · intro hmq
    obtain ⟨l0, hl0, hpt0⟩ := ptMin_mem F mq hmin
    have hmpos : 0 < mq := lt_of_le_of_ne (hpt0 ▸ hnonneg l0 hl0) (Ne.symm hmq)
    have hle := ptMin_le F mq hmin
    have hlenpos : 0 < (F.length : ℚ) := by
      have : F.length ≠ 0 := hlen
      positivity
    have haq : aq = ptSum F / (F.length : ℚ) := by
      have hlen' : F.length ≠ 0 := hlen
      unfold ptAvg at havg
      rw [if_neg hlen'] at havg
      injection havg with havg
      exact havg.symm
    have haqpos : 0 < aq := by
      rw [haq]
      have hsumpos : 0 < ptSum F := by
        have := length_mul_le_ptSum F mq hle
        nlinarith
      positivity
    have hxqpos : 0 < xq := by
      obtain ⟨l1, hl1, hpt1⟩ := ptMax_mem F xq hmax
      exact lt_of_lt_of_le hmpos (hpt1 ▸ hle l1 hl1)
    have hres : get_res_time_stats F = ⟨mq, aq, xq⟩ := by
      unfold get_res_time_stats
      rw [hmin, havg, hmax]
      simp [pyTruthy, hmq, ne_of_gt haqpos, ne_of_gt hxqpos]
    unfold compute_summary
    rw [← hFdef, if_neg hlen]
    show some (roundIfTruthy (get_res_time_stats F).min) = _
      ∧ some (roundIfTruthy (get_res_time_stats F).avg) = _
      ∧ some (roundIfTruthy (get_res_time_stats F).max) = _
    rw [hres]
    exact ⟨by rw [roundIfTruthy_eq_round2],
           by rw [roundIfTruthy_eq_round2],
           by rw [roundIfTruthy_eq_round2]⟩
  · intro hmq
    subst hmq
    have hres : get_res_time_stats F = ⟨0, 0, 0⟩ := by
      unfold get_res_time_stats
      rw [hmin]
      simp [pyTruthy]
    unfold compute_summary
    rw [← hFdef, if_neg hlen]
    show some (roundIfTruthy (get_res_time_stats F).min) = _
      ∧ some (roundIfTruthy (get_res_time_stats F).avg) = _
      ∧ some (roundIfTruthy (get_res_time_stats F).max) = _
    rw [hres]
    have h0 : roundIfTruthy 0 = 0 := by simp [roundIfTruthy]
    exact ⟨by rw [h0], by rw [h0], by rw [h0]⟩

/-- Witness for C6's amended statement: a single record with nonzero
latency 0.1 gets min = avg = max = `round2 (1/10)`. -/
theorem c6_latency_stats_truthiness_witness :
    ptMin (filter_by_time_key [mkLogAt 0 200 (1/10)] 1 0 1) = some ((1:ℚ)/10)
    ∧ ptAvg (filter_by_time_key [mkLogAt 0 200 (1/10)] 1 0 1) = some ((1:ℚ)/10)
    ∧ ptMax (filter_by_time_key [mkLogAt 0 200 (1/10)] 1 0 1) = some ((1:ℚ)/10)
    ∧ ((1:ℚ)/10 ≠ 0)
    ∧ ((compute_summary [mkLogAt 0 200 (1/10)] 1 0 1 dailyKey).summary.min_response_time
          = some (round2 ((1:ℚ)/10))
       ∧ (compute_summary [mkLogAt 0 200 (1/10)] 1 0 1 dailyKey).summary.avg_response_time
          = some (round2 ((1:ℚ)/10))
       ∧ (compute_summary [mkLogAt 0 200 (1/10)] 1 0 1 dailyKey).summary.max_response_time
          = some (round2 ((1:ℚ)/10))) :=
  have hF : filter_by_time_key [mkLogAt 0 200 (1/10)] 1 0 1 = [mkLogAt 0 200 (1/10)] := rfl
  have hmin : ptMin (filter_by_time_key [mkLogAt 0 200 (1/10)] 1 0 1)
      = some ((1:ℚ)/10) := rfl
  have havg : ptAvg (filter_by_time_key [mkLogAt 0 200 (1/10)] 1 0 1)
      = some ((1:ℚ)/10) := by
    rw [hF]
    simp [ptAvg, ptSum, mkLogAt]
  have hmax : ptMax (filter_by_time_key [mkLogAt 0 200 (1/10)] 1 0 1)
      = some ((1:ℚ)/10) := rfl
  have hnonneg : ∀ l ∈ filter_by_time_key [mkLogAt 0 200 (1/10)] 1 0 1,
      0 ≤ l.process_time := by
    intro l hl
    rw [hF] at hl
    rcases List.mem_singleton.mp hl with rfl
    norm_num [mkLogAt]
  have hne : ((1:ℚ)/10) ≠ 0 := by norm_num
  ⟨hmin, havg, hmax, hne,
   (c6_latency_stats_truthiness [mkLogAt 0 200 (1/10)] 1 0 1 dailyKey
      ((1:ℚ)/10) ((1:ℚ)/10) ((1:ℚ)/10) hmin havg hmax hnonneg).1 hne⟩

theorem validate_inv (p : LogPayload) (v : ValidatedLog)
    (h : LogInput.validate p = some v) :
    clean_string p.method = some v.method
    ∧ v.method ∈ ALLOWED_METHODS
    ∧ clean_string p.endpoint = some v.endpoint
    ∧ v.created_at = p.created_at
    ∧ v.process_time = p.process_time
    ∧ v.status_code = p.status_code := by
  unfold LogInput.validate at h
  split at h
  · exact Option.noConfusion h
  · rename_i m hm
    split at h
    · rename_i hmem
      split at h
      · exact Option.noConfusion h
      · rename_i e he
        split at h
        · rename_i hlen
          dsimp only at h
          split at h
          · injection h with h
            subst h
            exact ⟨hm, hmem, he, rfl, rfl, rfl⟩
          · exact Option.noConfusion h
        · exact Option.noConfusion h
    · exact Option.noConfusion h

/-- C7 (counterexample): ingesting a valid payload whose endpoint is
"/API" and fetching raw logs returns the endpoint "/API"  unchanged —
not the lower-cased form "/api" that the claim requires (the sanitizer
only strips control characters and whitespace; nothing lower-cases). -/
theorem c7_endpoint_not_lowercased_counterexample :
    LogInput.validate payloadUpperEndpoint = some validatedUpperEndpoint
    ∧ (raw_logs_api (create_log [] validatedUpperEndpoint 1)
        (FilterParams.mkDefault 0) 1).map (fun o => o.endpoint) = ["/API"]
    ∧ "/API" ≠ "/api" := by
  refine ⟨by decide, rfl, by decide⟩

/-- C7 as amended: ingesting a valid payload and fetching raw logs for the
same owner returns a record whose method and endpoint are the
control-character-stripped, whitespace-trimmed input values (the endpoint
is not lower-cased), whose status_code is identical, and whose
process_time equals the input rounded to 2 decimals. -/
theorem c7_round_trip_sanitized
    (p : LogPayload) (v : ValidatedLog) (owner loadDate : Nat)
    (hval : LogInput.validate p = some v)
    (hwin : v.created_at ≤ dayEnd loadDate) :
    ∃ o : LogOutput,
      raw_logs_api (create_log [] v owner) (FilterParams.mkDefault loadDate) owner = [o]
      ∧ clean_string p.method = some o.method
      ∧ clean_string p.endpoint = some o.endpoint
      ∧ o.status_code = p.status_code
      ∧ o.process_time = round2 p.process_time := by
  obtain ⟨hm, hmem, he, hca, hpt, hsc⟩ := validate_inv p v hval
  have hpage : raw_logs_api (create_log [] v owner) (FilterParams.mkDefault loadDate) owner
      = (create_log [] v owner).map toLogOutput := by
    unfold raw_logs_api show_raw_logs create_log build_log_filters FilterParams.mkDefault
    simp [satisfiesAll, sortLogs, insertLe, hwin]
  refine ⟨toLogOutput ⟨1, v.created_at, v.method, v.endpoint, v.ip,
      v.process_time, v.status_code, owner⟩, ?_, ?_, ?_, ?_, ?_⟩
  · rw [hpage]
    rfl
  · rw [hm]
    rfl
  · rw [he]
    rfl
  · show v.status_code = p.status_code
    exact hsc
  · show round2 v.process_time = round2 p.process_time
    rw [hpt]

/-- Witness for C7's amended statement at the "/API" payload. -/
theorem c7_round_trip_sanitized_witness :
    LogInput.validate payloadUpperEndpoint = some validatedUpperEndpoint
    ∧ validatedUpperEndpoint.created_at ≤ dayEnd 0
    ∧ ∃ o : LogOutput,
        raw_logs_api (create_log [] validatedUpperEndpoint 1)
          (FilterParams.mkDefault 0) 1 = [o]
        ∧ clean_string payloadUpperEndpoint.method = some o.method
        ∧ clean_string payloadUpperEndpoint.endpoint = some o.endpoint
        ∧ o.status_code = payloadUpperEndpoint.status_code
        ∧ o.process_time = round2 payloadUpperEndpoint.process_time :=
  ⟨by decide, by decide,
   c7_round_trip_sanitized payloadUpperEndpoint validatedUpperEndpoint 1 0
     (by decide) (by decide)⟩

/-- C8 (counterexample): the whitelist regex
`^(GET|POST|PUT|DELETE|PATCH|OPTIONS)$` carries no IGNORECASE flag; the
otherwise-valid payload whose method is "get" is rejected, although "get"
is a case-insensitive match of the whitelisted "GET". -/
theorem c8_lowercase_method_rejected_counterexample :
    LogInput.validate payloadLowerGet = none
    ∧ clean_string payloadLowerGet.method = some "get"
    ∧ "GET" ∈ ALLOWED_METHODS := by
  refine ⟨by decide, by decide, by decide⟩

/-- C8 as amended: ingest validation accepts a payload's method only if its
cleaned form is exactly one of GET, POST, PUT, DELETE, PATCH, OPTIONS
(case-sensitive); each of those six exact spellings is accepted on an
otherwise-valid payload, and any other method value is rejected before
reaching the core. -/
theorem c8_method_whitelist_case_sensitive :
    (∀ p v, LogInput.validate p = some v →
      clean_string p.method = some v.method ∧ v.method ∈ ALLOWED_METHODS)
    ∧ (∀ m ∈ ALLOWED_METHODS, (LogInput.validate (payloadWithMethod m)).isSome = true) := by
  constructor
  · intro p v h
    obtain ⟨hm, hmem, _⟩ := validate_inv p v h
    exact ⟨hm, hmem⟩
  · intro m hm
    fin_cases hm <;> decide

/-- Witness for C8's amended statement: the accepted spelling "GET". -/
theorem c8_method_whitelist_case_sensitive_witness :
    (clean_string payloadUpperEndpoint.method = some "GET"
      ∧ "GET" ∈ ALLOWED_METHODS)
    ∧ (LogInput.validate (payloadWithMethod "GET")).isSome = true :=
  ⟨c8_method_whitelist_case_sensitive.1 payloadUpperEndpoint validatedUpperEndpoint
      (by decide),
   c8_method_whitelist_case_sensitive.2 "GET" (by decide)⟩

theorem all_filter_block (c : Prop) [Decidable c] (f : Log → Bool) (l : Log) :
    List.all (if c then [] else [f]) (fun g => g l) = if c then true else f l := by
  split <;> simp

/-- C9 (counterexample): with `status_code = 0` supplied, `build_log_filters`
adds no status condition (`if param.status_code:` is falsy at 0), so a log
with status 200 passes every built condition, while the claim's contract —
an exact-match constraint for every present field, including the boundary
value 0 — rejects it. -/
theorem c9_status_zero_filter_counterexample :
    satisfiesAll (build_log_filters { end_date := 10, status_code := some 0 } 1)
        (mkLogAt 0 200 1) = true
    ∧ claimFilterPred { end_date := 10, status_code := some 0 } 1 (mkLogAt 0 200 1)
        = false := by
  refine ⟨by decide, by decide⟩

/-- C9 as amended: the built predicate set is equivalent to the claim's
contract with the proviso that an optional field supplied with a
Python-falsy value (0, 0.0, or an empty string) contributes no
constraint; the owner-equality and the day-widened date bounds behave as
claimed. -/
theorem c9_filter_predicate_truthiness
    (param : FilterParams) (api_key_id : Nat) (l : Log) :
    satisfiesAll (build_log_filters param api_key_id) l
      = amendedFilterPred param api_key_id l := by
  obtain ⟨lim, off, ob, sd, ed, me, sc, ep, ip0, ptn, ptx⟩ := param
  unfold satisfiesAll build_log_filters amendedFilterPred
  cases sd <;> cases me <;> cases sc <;> cases ep <;> cases ip0 <;>
    cases ptn <;> cases ptx <;>
    simp only [List.singleton_append, List.cons_append, List.nil_append,
      List.append_assoc, List.all_append, List.all_cons, List.all_nil,
      all_filter_block, Bool.and_true, Bool.true_and, Bool.and_assoc]

/-- C10: a `FilterParams` built without an explicit `end_date` carries the
fixed module-load day (captured when the schemas module was imported) as
its `end_date`, and the built predicate then bounds `created_at` by the
end of that fixed day: a record created on any later day is excluded. -/
theorem c10_default_end_date_excludes_later
    (loadDate api_key_id : Nat) (l : Log)
    (hlate : dayEnd loadDate < l.created_at) :
    (FilterParams.mkDefault loadDate).end_date = loadDate
    ∧ satisfiesAll (build_log_filters (FilterParams.mkDefault loadDate) api_key_id) l
        = false := by
  refine ⟨rfl, ?_⟩
  unfold satisfiesAll build_log_filters FilterParams.mkDefault
  simp [Nat.not_le.mpr hlate]

/-- Witness for C10: with module-load day 0, a record created on day 1 is
excluded from the default-filtered query. -/
theorem c10_default_end_date_excludes_later_witness :
    dayEnd 0 < (mkLogAt 1 200 1).created_at
    ∧ (FilterParams.mkDefault 0).end_date = 0
    ∧ satisfiesAll (build_log_filters (FilterParams.mkDefault 0) 1) (mkLogAt 1 200 1)
        = false :=
  ⟨by decide,
   (c10_default_end_date_excludes_later 0 1 (mkLogAt 1 200 1) (by decide)).1,
   (c10_default_end_date_excludes_later 0 1 (mkLogAt 1 200 1) (by decide)).2⟩
